import Mathlib

/-
Verification of the LINS lidar-inertial estimation core.

Part 1 embeds the IMU preintegration engine of
`src/lins/include/integrationBase.h` (class `IntegrationBase`) over the real
numbers: 3-vectors are `Fin 3 → ℝ`, quaternions are Mathlib's `Quaternion ℝ`
(Eigen's `Quaterniond`, Hamilton product), and the 15×15 error-state matrices
are `Matrix (Fin 15) (Fin 15) ℝ`.

Part 2 embeds the measurement-synchronization scheduler of
`src/lins/src/lib/Estimator.cpp` (class `LinsFusion`) with exact rational
timestamps.  The collaborator seams that are not part of this source excerpt
(`MapRingBuffer.h`, and the `StateEstimator` filter of `KalmanFilter.hpp`)
are modelled from the specification's interface contracts; every such
definition is marked in its doc comment.
-/

noncomputable section

/-! ### Part 1: the preintegration engine (`integrationBase.h`) -/

/-- A 3-vector, Eigen's `Vector3d`. -/
abbrev Vec3 : Type := Fin 3 → ℝ

/-- Eigen cross product `u.cross(v)`. -/
def cross3 (u v : Vec3) : Vec3 :=
  ![u 1 * v 2 - u 2 * v 1, u 2 * v 0 - u 0 * v 2, u 0 * v 1 - u 1 * v 0]

/-- The imaginary (vector) part of a quaternion, Eigen's `q.vec()`. -/
def qvec (q : Quaternion ℝ) : Vec3 := ![q.imI, q.imJ, q.imK]

/-- Eigen's quaternion-vector product `q * v` (`Quaternion::_transformVector`):
`uv := 2 (q.vec × v); result := v + q.w • uv + q.vec × uv`. -/
def quatRotate (q : Quaternion ℝ) (v : Vec3) : Vec3 :=
  let uv : Vec3 := (2 : ℝ) • cross3 (qvec q) v
  v + q.re • uv + cross3 (qvec q) uv

/-- Eigen's `Quaternion::toRotationMatrix()`. -/
def toRotationMatrix (q : Quaternion ℝ) : Matrix (Fin 3) (Fin 3) ℝ :=
  Matrix.of fun i j =>
    if i.val = 0 ∧ j.val = 0 then 1 - 2 * (q.imJ * q.imJ + q.imK * q.imK) else
    if i.val = 0 ∧ j.val = 1 then 2 * (q.imI * q.imJ - q.re * q.imK) else
    if i.val = 0 ∧ j.val = 2 then 2 * (q.imI * q.imK + q.re * q.imJ) else
    if i.val = 1 ∧ j.val = 0 then 2 * (q.imI * q.imJ + q.re * q.imK) else
    if i.val = 1 ∧ j.val = 1 then 1 - 2 * (q.imI * q.imI + q.imK * q.imK) else
    if i.val = 1 ∧ j.val = 2 then 2 * (q.imJ * q.imK - q.re * q.imI) else
    if i.val = 2 ∧ j.val = 0 then 2 * (q.imI * q.imK - q.re * q.imJ) else
    if i.val = 2 ∧ j.val = 1 then 2 * (q.imJ * q.imK + q.re * q.imI) else
    1 - 2 * (q.imI * q.imI + q.imJ * q.imJ)

/-- The skew-symmetric (cross-product) matrix filled in
`midPointIntegration` for `R_w_x`, `R_a_0_x`, `R_a_1_x`:
rows `(0, -v2, v1; v2, 0, -v0; -v1, v0, 0)`. -/
def skew (v : Vec3) : Matrix (Fin 3) (Fin 3) ℝ :=
  Matrix.of fun i j =>
    if i.val = 0 ∧ j.val = 1 then -v 2 else
    if i.val = 0 ∧ j.val = 2 then v 1 else
    if i.val = 1 ∧ j.val = 0 then v 2 else
    if i.val = 1 ∧ j.val = 2 then -v 0 else
    if i.val = 2 ∧ j.val = 0 then -v 1 else
    if i.val = 2 ∧ j.val = 1 then v 0 else 0

/-- Eigen's `MatrixBase::normalize()` on a quaternion: divide by the norm. -/
def normalizeQ (q : Quaternion ℝ) : Quaternion ℝ := ‖q‖⁻¹ • q

/-- The averaged bias-compensated angular rate
`un_gyr = 0.5 * (_gyr_0 + _gyr_1) - linearized_bg` of `midPointIntegration`. -/
def unGyr (_gyr_0 _gyr_1 linearized_bg : Vec3) : Vec3 :=
  (1 / 2 : ℝ) • (_gyr_0 + _gyr_1) - linearized_bg

/-- The small-angle quaternion increment
`Quaterniond(1, w0*dt/2, w1*dt/2, w2*dt/2)` of `midPointIntegration`. -/
def deltaQinc (_dt : ℝ) (un_gyr : Vec3) : Quaternion ℝ :=
  ⟨1, un_gyr 0 * _dt / 2, un_gyr 1 * _dt / 2, un_gyr 2 * _dt / 2⟩

/-- Assemble a 15×15 matrix from a 5×5 grid of 3×3 blocks.  Row/column
`i` lands in block `i / 3`, at block-local index `i % 3`. -/
def toBlockMatrix (f : Fin 5 → Fin 5 → Matrix (Fin 3) (Fin 3) ℝ) :
    Matrix (Fin 15) (Fin 15) ℝ :=
  Matrix.of fun i j =>
    f ⟨i.val / 3, by omega⟩ ⟨j.val / 3, by omega⟩ ⟨i.val % 3, by omega⟩ ⟨j.val % 3, by omega⟩

/-- Modelled from the spec: the block layout of the 15-dimensional error
state.  `KalmanFilter.hpp` (which defines `GlobalState::pos_ = 0`,
`vel_ = 3`, `att_ = 6`, `acc_ = 9`, `gyr_ = 12`) is not part of this source
excerpt; the spec fixes the block order as
{position, velocity, attitude, accel-bias, gyro-bias}.  As 3×3-block
indices: pos = 0, vel = 1, att = 2, acc = 3, gyr = 4.

`Fblocks _dt R0 R1 Rw Ra0 Ra1 b1 b2` is the `(b1, b2)` block of the
per-step transition matrix `F` assembled in `midPointIntegration`, where
`R0 = delta_q.toRotationMatrix()`, `R1 = result_delta_q.toRotationMatrix()`,
`Rw = R_w_x`, `Ra0 = R_a_0_x`, `Ra1 = R_a_1_x`.  Blocks not assigned in the
source stay at their `MatrixXd::Zero(15, 15)` value. -/
def Fblocks (_dt : ℝ) (R0 R1 Rw Ra0 Ra1 : Matrix (Fin 3) (Fin 3) ℝ)
    (b1 b2 : Fin 5) : Matrix (Fin 3) (Fin 3) ℝ :=
  if b1.val = 0 ∧ b2.val = 0 then 1 else
  if b1.val = 0 ∧ b2.val = 1 then _dt • (1 : Matrix (Fin 3) (Fin 3) ℝ) else
  if b1.val = 0 ∧ b2.val = 2 then
    (-(1 / 4) * _dt * _dt) • (R0 * Ra0) +
      (-(1 / 4) * _dt * _dt) • (R1 * Ra1 * (1 - _dt • Rw)) else
  if b1.val = 0 ∧ b2.val = 3 then (-(1 / 4) * _dt * _dt) • (R0 + R1) else
  if b1.val = 0 ∧ b2.val = 4 then (-(1 / 4) * _dt * _dt * -_dt) • (R1 * Ra1) else
  if b1.val = 1 ∧ b2.val = 2 then
    (-(1 / 2) * _dt) • (R0 * Ra0) +
      (-(1 / 2) * _dt) • (R1 * Ra1 * (1 - _dt • Rw)) else
  if b1.val = 1 ∧ b2.val = 1 then 1 else
  if b1.val = 1 ∧ b2.val = 3 then (-(1 / 2) * _dt) • (R0 + R1) else
  if b1.val = 1 ∧ b2.val = 4 then (-(1 / 2) * _dt * -_dt) • (R1 * Ra1) else
  if b1.val = 2 ∧ b2.val = 2 then 1 - _dt • Rw else
  if b1.val = 2 ∧ b2.val = 4 then ((-1 : ℝ) * _dt) • (1 : Matrix (Fin 3) (Fin 3) ℝ) else
  if b1.val = 3 ∧ b2.val = 3 then 1 else
  if b1.val = 4 ∧ b2.val = 4 then 1 else 0

/-- The full 15×15 per-step transition matrix `F` of `midPointIntegration`,
as a function of the step length, the two rotation deltas and the three
skewed vectors. -/
def Fmat (_dt : ℝ) (dq rq : Quaternion ℝ) (w a0 a1 : Vec3) :
    Matrix (Fin 15) (Fin 15) ℝ :=
  toBlockMatrix (Fblocks _dt (toRotationMatrix dq) (toRotationMatrix rq)
    (skew w) (skew a0) (skew a1))

/-- The per-step transition matrix of one `midPointIntegration` call, in
terms of the call's inputs: `w_x = 0.5*(_gyr_0 + _gyr_1) - linearized_bg`,
`a_0_x = _acc_0 - linearized_ba`, `a_1_x = _acc_1 - linearized_ba`, and the
pre/post rotation deltas. -/
def stepF (_dt : ℝ) (_acc_0 _gyr_0 _acc_1 _gyr_1 : Vec3)
    (delta_q : Quaternion ℝ) (linearized_ba linearized_bg : Vec3) :
    Matrix (Fin 15) (Fin 15) ℝ :=
  Fmat _dt delta_q (delta_q * deltaQinc _dt (unGyr _gyr_0 _gyr_1 linearized_bg))
    (unGyr _gyr_0 _gyr_1 linearized_bg)
    (_acc_0 - linearized_ba) (_acc_1 - linearized_ba)

/-- The output parameters of `IntegrationBase::midPointIntegration`,
together with the `jacobian` member it updates in place. -/
structure MidPointResult where
  result_delta_p : Vec3
  result_delta_q : Quaternion ℝ
  result_delta_v : Vec3
  result_linearized_ba : Vec3
  result_linearized_bg : Vec3
  jacobian : Matrix (Fin 15) (Fin 15) ℝ

/-- `IntegrationBase::midPointIntegration`.  The in-place update
`jacobian = F * jacobian` (performed when `update_jacobian`) is returned in
the `jacobian` field. -/
def midPointIntegration (_dt : ℝ) (_acc_0 _gyr_0 _acc_1 _gyr_1 : Vec3)
    (delta_p : Vec3) (delta_q : Quaternion ℝ) (delta_v : Vec3)
    (linearized_ba linearized_bg : Vec3)
    (jacobian : Matrix (Fin 15) (Fin 15) ℝ) (update_jacobian : Bool) :
    MidPointResult :=
  let un_acc_0 := quatRotate delta_q (_acc_0 - linearized_ba)
  let un_gyr := unGyr _gyr_0 _gyr_1 linearized_bg
  let result_delta_q := delta_q * deltaQinc _dt un_gyr
  let un_acc_1 := quatRotate result_delta_q (_acc_1 - linearized_ba)
  let un_acc := (1 / 2 : ℝ) • (un_acc_0 + un_acc_1)
  let result_delta_p := delta_p + _dt • delta_v + ((1 / 2) * _dt * _dt) • un_acc
  let result_delta_v := delta_v + _dt • un_acc
  let jacobian' :=
    if update_jacobian then
      stepF _dt _acc_0 _gyr_0 _acc_1 _gyr_1 delta_q linearized_ba linearized_bg * jacobian
    else jacobian
  { result_delta_p := result_delta_p
    result_delta_q := result_delta_q
    result_delta_v := result_delta_v
    result_linearized_ba := linearized_ba
    result_linearized_bg := linearized_bg
    jacobian := jacobian' }

/-- The state of `class IntegrationBase`.  The unused members `G`,
`step_jacobian`, `step_V` and `noise` (never read or written by this
excerpt's code paths) are omitted. -/
structure IntegrationBase where
  dt : ℝ
  acc_0 : Vec3
  gyr_0 : Vec3
  acc_1 : Vec3
  gyr_1 : Vec3
  linearized_acc : Vec3
  linearized_gyr : Vec3
  linearized_ba : Vec3
  linearized_bg : Vec3
  jacobian : Matrix (Fin 15) (Fin 15) ℝ
  covariance : Matrix (Fin 15) (Fin 15) ℝ
  sum_dt : ℝ
  delta_p : Vec3
  delta_q : Quaternion ℝ
  delta_v : Vec3
  dt_buf : List ℝ
  acc_buf : List Vec3
  gyr_buf : List Vec3

/-- The `IntegrationBase` constructor: jacobian seeded with the identity,
covariance zeroed, deltas at identity/zero.  `dt`, `acc_1`, `gyr_1` are
uninitialized in the C++ and overwritten by the first `propagate` before
any read; they are set to zero here. -/
def mkIntegrationBase (_acc_0 _gyr_0 _linearized_ba _linearized_bg : Vec3) :
    IntegrationBase :=
  { dt := 0
    acc_0 := _acc_0
    gyr_0 := _gyr_0
    acc_1 := 0
    gyr_1 := 0
    linearized_acc := _acc_0
    linearized_gyr := _gyr_0
    linearized_ba := _linearized_ba
    linearized_bg := _linearized_bg
    jacobian := 1
    covariance := 0
    sum_dt := 0
    delta_p := 0
    delta_q := 1
    delta_v := 0
    dt_buf := []
    acc_buf := []
    gyr_buf := [] }

/-- `IntegrationBase::propagate`: run `midPointIntegration` on the cached
previous sample and the new one, commit the results, renormalize the
rotation delta, accumulate `sum_dt`, advance the previous-sample cache. -/
def propagate (s : IntegrationBase) (_dt : ℝ) (_acc_1 _gyr_1 : Vec3) :
    IntegrationBase :=
  let r := midPointIntegration _dt s.acc_0 s.gyr_0 _acc_1 _gyr_1 s.delta_p
    s.delta_q s.delta_v s.linearized_ba s.linearized_bg s.jacobian true
  { s with
    dt := _dt
    acc_1 := _acc_1
    gyr_1 := _gyr_1
    delta_p := r.result_delta_p
    delta_q := normalizeQ r.result_delta_q
    delta_v := r.result_delta_v
    linearized_ba := r.result_linearized_ba
    linearized_bg := r.result_linearized_bg
    jacobian := r.jacobian
    sum_dt := s.sum_dt + _dt
    acc_0 := _acc_1
    gyr_0 := _gyr_1 }

/-- `IntegrationBase::push_back`: record the raw sample in the histories and
propagate. -/
def push_back (s : IntegrationBase) (dt : ℝ) (acc gyr : Vec3) :
    IntegrationBase :=
  propagate
    { s with
      dt_buf := s.dt_buf ++ [dt]
      acc_buf := s.acc_buf ++ [acc]
      gyr_buf := s.gyr_buf ++ [gyr] }
    dt acc gyr

/-- `IntegrationBase::setBa`. -/
def setBa (s : IntegrationBase) (ba : Vec3) : IntegrationBase :=
  { s with linearized_ba := ba }

/-- `IntegrationBase::setBg`. -/
def setBg (s : IntegrationBase) (bg : Vec3) : IntegrationBase :=
  { s with linearized_bg := bg }

/-- A sequence of `push_back` calls, oldest first. -/
def pushSteps (s : IntegrationBase) : List (ℝ × Vec3 × Vec3) → IntegrationBase
  | [] => s
  | (dt, acc, gyr) :: rest => pushSteps (push_back s dt acc gyr) rest

/-- The left-multiplicative composition of the per-step transition matrices
produced along a sequence of `push_back` calls starting from state `s`
(later steps multiplied on the left). -/
def stepProduct (s : IntegrationBase) :
    List (ℝ × Vec3 × Vec3) → Matrix (Fin 15) (Fin 15) ℝ
  | [] => 1
  | (dt, acc, gyr) :: rest =>
      stepProduct (push_back s dt acc gyr) rest *
        stepF dt s.acc_0 s.gyr_0 acc gyr s.delta_q s.linearized_ba s.linearized_bg

end

/-! ### Part 2: the synchronization scheduler (`Estimator.cpp`)

Timestamps are exact rationals.  The opaque per-scan payloads (the
`PointCloud2` messages and the `cloud_info` message) are represented by
`Nat` identifiers: the scheduler only moves them around, never inspects
them. -/

/-- The `Imu` sample struct: a timestamp, a specific-force vector and an
angular-rate vector (components as exact rationals). -/
structure Imu where
  time : ℚ
  acc : ℚ × ℚ × ℚ
  gyr : ℚ × ℚ × ℚ
deriving DecidableEq

/-- Modelled from the spec: `MapRingBuffer.h` is not part of this source
excerpt.  Per spec §4.2 it is a timestamp-keyed ordered store (the C++ uses
a `std::map<double, T> measMap_`) with a capacity bound; here it is a
timestamp-sorted association list plus the capacity set by `allocate`. -/
structure MapRingBuffer (α : Type) where
  cap : Nat
  entries : List (ℚ × α)
deriving DecidableEq

/-- Insert into a timestamp-sorted association list, overwriting an entry
with an equal key (`std::map` subscript-assignment semantics). -/
def insertSorted (t : ℚ) (v : α) : List (ℚ × α) → List (ℚ × α)
  | [] => [(t, v)]
  | (t1, v1) :: rest =>
    if t < t1 then (t, v) :: (t1, v1) :: rest
    else if t = t1 then (t, v) :: rest
    else (t1, v1) :: insertSorted t v rest

/-- Modelled from the spec: `addMeasurement(value, timestamp)` inserts and,
if the capacity is exceeded, evicts the single oldest entry. -/
def addMeas (b : MapRingBuffer α) (v : α) (t : ℚ) : MapRingBuffer α :=
  let es := insertSorted t v b.entries
  { b with entries := if b.cap < es.length then es.tail else es }

/-- Modelled from the spec: `mostRecentTimestamp()` — the newest entry's
timestamp, or an empty result on an empty buffer (`getLastTime` in the C++,
which leaves its output untouched there). -/
def getLastTime (b : MapRingBuffer α) : Option ℚ :=
  b.entries.getLast?.map Prod.fst

/-- Modelled from the spec: `mostRecentValue()` — the newest entry's
payload (`getLastMeas` in the C++). -/
def getLastMeas (b : MapRingBuffer α) : Option α :=
  b.entries.getLast?.map Prod.snd

/-- Modelled from the spec: `firstEntryStrictlyAfter(timestamp)` — the
first entry with timestamp strictly greater than the given one, or the
end-of-data sentinel (`none`) if none exists.  This is exactly
`measMap_.upper_bound(t)` as used by `Estimator.cpp`. -/
def upperBound (b : MapRingBuffer α) (t : ℚ) : Option (ℚ × α) :=
  b.entries.find? fun e => decide (t < e.1)

/-- Modelled from the spec: `clean(cutoffTimestamp)` removes every entry
with timestamp at or before the cutoff. -/
def clean (b : MapRingBuffer α) (t : ℚ) : MapRingBuffer α :=
  { b with entries := b.entries.filter fun e => decide (t < e.1) }

/-- Modelled from the spec: the `StateEstimator` of `KalmanFilter.hpp` is
not part of this source excerpt.  Per spec §4.4 it owns the filter cursor
(`getTime()`) and the initialization flag, `processImu(dt, acc, gyr)`
integrates one step advancing the cursor by `dt` (§4.3 step 3), and
`processPCL(scanTime, imu, scan, scanInfo, outlierCloud)` performs the
correction step, advancing the cursor to the scan time as its authoritative
output and marking the filter initialized.  The out-of-scope filter
mathematics is abstracted as logs of the calls received. -/
structure StateEstimator where
  time : ℚ
  initialized : Bool
  imuLog : List (ℚ × (ℚ × ℚ × ℚ) × (ℚ × ℚ × ℚ))
  pclLog : List (ℚ × Imu × Nat × Nat × Nat)
deriving DecidableEq

/-- Modelled from the spec: `StateEstimator::processImu(dt, acc, gyr)` —
integrate one step of length `dt`, advancing the cursor by `dt`. -/
def processImu (e : StateEstimator) (dt : ℚ) (acc gyr : ℚ × ℚ × ℚ) :
    StateEstimator :=
  { e with time := e.time + dt, imuLog := e.imuLog ++ [(dt, acc, gyr)] }

/-- Modelled from the spec: `StateEstimator::processPCL` — consume one scan
with its side-channel payloads and the latest inertial sample, set the
cursor to the scan time, mark the filter initialized. -/
def processPCL (e : StateEstimator) (scanTime : ℚ) (imu : Imu)
    (pcl info outlier : Nat) : StateEstimator :=
  { e with
    time := scanTime
    initialized := true
    pclLog := e.pclLog ++ [(scanTime, imu, pcl, info, outlier)] }

/-- The buffer/estimator state of `class LinsFusion` (`Estimator.cpp`):
the four measurement buffers, the owned `StateEstimator`, and the
`scan_time_` member. -/
structure LinsFusion where
  imuBuf : MapRingBuffer Imu
  pclBuf : MapRingBuffer Nat
  outlierBuf : MapRingBuffer Nat
  cloudInfoBuf : MapRingBuffer Nat
  estimator : StateEstimator
  scan_time : ℚ
deriving DecidableEq

/-- `LinsFusion::processFirstPointCloud`: bootstrap from the most recent
scan, its side-channel payloads and the latest inertial sample, then clean
the three point-cloud buffers (not the inertial buffer) up to the new
cursor.  `none` marks the undefined behavior of reading the newest entry of
an empty buffer (the caller guards against it). -/
def processFirstPointCloud (s : LinsFusion) : Option LinsFusion :=
  match getLastTime s.pclBuf, getLastMeas s.pclBuf, getLastMeas s.outlierBuf,
      getLastMeas s.cloudInfoBuf, getLastMeas s.imuBuf with
  | some st, some pclMsg, some outlierMsg, some infoMsg, some imu =>
    let est := processPCL s.estimator st imu pclMsg infoMsg outlierMsg
    some { s with
      scan_time := st
      estimator := est
      pclBuf := clean s.pclBuf est.time
      cloudInfoBuf := clean s.cloudInfoBuf est.time
      outlierBuf := clean s.outlierBuf est.time }
  | _, _, _, _, _ => none

/-- The inertial drain loop of `LinsFusion::processPointClouds`:
while the cursor is behind the scan time and an inertial sample exists
beyond the cursor, integrate one step with
`dt = min(sample.timestamp, scanTime) - cursor`.  The loop is written with
explicit fuel; `imuBuf.entries.length + 2` steps always suffice because
every productive iteration either consumes a buffered sample or clips to
the scan time and stops. -/
def drainImu : Nat → MapRingBuffer Imu → ℚ → StateEstimator → StateEstimator
  | 0, _, _, e => e
  | n + 1, buf, scanTime, e =>
    if e.time < scanTime then
      match upperBound buf e.time with
      | some (tImu, imu) =>
          drainImu n buf scanTime (processImu e (min tImu scanTime - e.time) imu.acc imu.gyr)
      | none => e
    else e

/-- `LinsFusion::processPointClouds`.  Returns `some (ready, newState)`;
`none` marks the undefined behavior of dereferencing the end-of-data
sentinel returned by `upper_bound` (the C++ dereferences unconditionally)
or of reading the newest entry of an empty inertial buffer. -/
def processPointClouds (s : LinsFusion) : Option (Bool × LinsFusion) :=
  match upperBound s.pclBuf s.estimator.time with
  | none => none
  | some (st, pclMsg) =>
    match upperBound s.outlierBuf s.estimator.time with
    | none => none
    | some (_, outlierMsg) =>
      match upperBound s.cloudInfoBuf s.estimator.time with
      | none => none
      | some (_, infoMsg) =>
        match getLastTime s.imuBuf with
        | none => none
        | some last_imu_time =>
          if last_imu_time < st then some (false, { s with scan_time := st })
          else
            let e1 := drainImu (s.imuBuf.entries.length + 2) s.imuBuf st s.estimator
            match getLastMeas s.imuBuf with
            | none => none
            | some lastImu =>
              let e2 := processPCL e1 st lastImu pclMsg infoMsg outlierMsg
              some (true, { s with
                scan_time := st
                estimator := e2
                imuBuf := clean s.imuBuf e2.time
                pclBuf := clean s.pclBuf e2.time
                cloudInfoBuf := clean s.cloudInfoBuf e2.time
                outlierBuf := clean s.outlierBuf e2.time })

/-- The catch-up loop of `LinsFusion::performStateEstimation`: while the
scan buffer is non-empty and the cursor is behind the most recent scan time
captured before the loop, run `processPointClouds`, stopping on a
"not ready" result.  Fuel-indexed; each `true` iteration removes at least
the consumed scan from the scan buffer, so `pclBuf.entries.length + 1`
steps suffice. -/
def estLoop : Nat → ℚ → LinsFusion → Option LinsFusion
  | 0, _, s => some s
  | n + 1, last_scan_time, s =>
    if s.pclBuf.entries ≠ [] ∧ s.estimator.time < last_scan_time then
      match processPointClouds s with
      | none => none
      | some (false, s1) => some s1
      | some (true, s1) => estLoop n last_scan_time s1
    else some s

/-- `LinsFusion::performStateEstimation`: return unchanged unless all four
buffers are non-empty; bootstrap via `processFirstPointCloud` when the
estimator is uninitialized; otherwise drain queued scans. -/
def performStateEstimation (s : LinsFusion) : Option LinsFusion :=
  if s.imuBuf.entries = [] ∨ s.pclBuf.entries = [] ∨
      s.cloudInfoBuf.entries = [] ∨ s.outlierBuf.entries = [] then some s
  else if s.estimator.initialized = false then processFirstPointCloud s
  else
    match getLastTime s.pclBuf with
    | none => none
    | some last_scan_time => estLoop (s.pclBuf.entries.length + 1) last_scan_time s

/-! ### Concrete states used to instantiate the scheduler theorems -/

/-- An inertial sample at t = 0.98 s. -/
def c2imu : Imu := ⟨49/50, (0, 0, 0), (0, 0, 0)⟩

/-- Tracking state with cursor 0.95 s, one inertial sample at 0.98 s and a
scan (with side-channel payloads) at 1.0 s: inertial coverage falls short
of the pending scan. -/
def c2state : LinsFusion :=
  { imuBuf := ⟨500, [(49/50, c2imu)]⟩
    pclBuf := ⟨3, [(1, 51)]⟩
    outlierBuf := ⟨3, [(1, 52)]⟩
    cloudInfoBuf := ⟨3, [(1, 53)]⟩
    estimator := ⟨19/20, true, [], []⟩
    scan_time := 19/20 }

/-- The inertial sample at t = 1.05 s that straddles the scans at 1.0 s and
1.2 s. -/
def c3imu1 : Imu := ⟨21/20, (1, 2, 3), (4, 5, 6)⟩

/-- The inertial sample at t = 1.25 s covering the scan at 1.2 s. -/
def c3imu2 : Imu := ⟨5/4, (7, 8, 9), (10, 11, 12)⟩

/-- Tracking state with cursor 0.95 s, scans queued at 1.0 s and 1.2 s, and
inertial samples at 1.05 s and 1.25 s. -/
def c3state : LinsFusion :=
  { imuBuf := ⟨500, [(21/20, c3imu1), (5/4, c3imu2)]⟩
    pclBuf := ⟨3, [(1, 11), (6/5, 12)]⟩
    outlierBuf := ⟨3, [(1, 21), (6/5, 22)]⟩
    cloudInfoBuf := ⟨3, [(1, 31), (6/5, 32)]⟩
    estimator := ⟨19/20, true, [], []⟩
    scan_time := 19/20 }

/-- An old inertial sample at t = 0.5 s, before the bootstrap scan. -/
def c9imuOld : Imu := ⟨1/2, (0, 0, 1), (0, 0, 0)⟩

/-- The latest inertial sample at t = 1.0 s. -/
def c9imuNew : Imu := ⟨1, (0, 0, 2), (0, 0, 0)⟩

/-- Uninitialized state: all four buffers non-empty, scan at 1.0 s,
inertial samples at 0.5 s and 1.0 s. -/
def c9state : LinsFusion :=
  { imuBuf := ⟨500, [(1/2, c9imuOld), (1, c9imuNew)]⟩
    pclBuf := ⟨3, [(1, 71)]⟩
    outlierBuf := ⟨3, [(1, 72)]⟩
    cloudInfoBuf := ⟨3, [(1, 73)]⟩
    estimator := ⟨0, false, [], []⟩
    scan_time := 0 }

/-- The state produced by the first scheduler invocation on `c9state`: the
three point-cloud buffers are emptied, the inertial buffer keeps both of
its entries, including the one at 0.5 s. -/
def c9result : LinsFusion :=
  { imuBuf := ⟨500, [(1/2, c9imuOld), (1, c9imuNew)]⟩
    pclBuf := ⟨3, []⟩
    outlierBuf := ⟨3, []⟩
    cloudInfoBuf := ⟨3, []⟩
    estimator := ⟨1, true, [], [(1, c9imuNew, 71, 73, 72)]⟩
    scan_time := 1 }

/-- The latest inertial sample used by the bootstrap witness. -/
def c9wimu : Imu := ⟨4/5, (1, 1, 1), (2, 2, 2)⟩

/-- Uninitialized state for the bootstrap witness: one entry per buffer. -/
def c9wstate : LinsFusion :=
  { imuBuf := ⟨500, [(4/5, c9wimu)]⟩
    pclBuf := ⟨3, [(1, 61)]⟩
    outlierBuf := ⟨3, [(1, 62)]⟩
    cloudInfoBuf := ⟨3, [(1, 63)]⟩
    estimator := ⟨0, false, [], []⟩
    scan_time := 0 }

/-- Initialized state with cursor 1.0 s, a scan queued at 1.2 s with its
scan-info twin, inertial coverage up to 1.3 s, but an outlier-cloud buffer
whose only entry (0.9 s) lies at or before the cursor. -/
def c10state : LinsFusion :=
  { imuBuf := ⟨500, [(13/10, ⟨13/10, (0, 0, 0), (0, 0, 0)⟩)]⟩
    pclBuf := ⟨3, [(6/5, 41)]⟩
    outlierBuf := ⟨3, [(9/10, 42)]⟩
    cloudInfoBuf := ⟨3, [(6/5, 43)]⟩
    estimator := ⟨1, true, [], []⟩
    scan_time := 1 }

/-! ### Scheduler theorems -/

/-- C2: when the most recent buffered inertial sample is strictly earlier
than the next scan (the first scan-buffer entry after the cursor),
`processPointClouds` performs no `processImu` and no `processPCL` call,
leaves the estimator cursor and the contents of all four buffers unchanged,
and returns the "not ready" signal `false`; this holds for every such
invocation, i.e. until inertial coverage reaches the scan time. -/
theorem scheduler_ordering_guard (s : LinsFusion) (st : ℚ) (pclMsg : Nat)
    (ot : ℚ) (om : Nat) (it : ℚ) (im : Nat) (tImu : ℚ)
    (hscan : upperBound s.pclBuf s.estimator.time = some (st, pclMsg))
    (hout : upperBound s.outlierBuf s.estimator.time = some (ot, om))
    (hinfo : upperBound s.cloudInfoBuf s.estimator.time = some (it, im))
    (himu : getLastTime s.imuBuf = some tImu)
    (hlt : tImu < st) :
    processPointClouds s = some (false, { s with scan_time := st }) ∧
    ({ s with scan_time := st } : LinsFusion).imuBuf = s.imuBuf ∧
    ({ s with scan_time := st } : LinsFusion).pclBuf = s.pclBuf ∧
    ({ s with scan_time := st } : LinsFusion).outlierBuf = s.outlierBuf ∧
    ({ s with scan_time := st } : LinsFusion).cloudInfoBuf = s.cloudInfoBuf ∧
    ({ s with scan_time := st } : LinsFusion).estimator = s.estimator := by
  refine ⟨?_, rfl, rfl, rfl, rfl, rfl⟩
  unfold processPointClouds
  rw [hscan, hout, hinfo, himu]
  simp [hlt]

/-- C2 witness: at cursor 0.95 s with inertial coverage ending at 0.98 s
and a scan at 1.0 s, the guard fires and the state is untouched. -/
theorem scheduler_ordering_guard_witness :
    processPointClouds c2state = some (false, { c2state with scan_time := 1 }) ∧
    ({ c2state with scan_time := 1 } : LinsFusion).imuBuf = c2state.imuBuf ∧
    ({ c2state with scan_time := 1 } : LinsFusion).pclBuf = c2state.pclBuf ∧
    ({ c2state with scan_time := 1 } : LinsFusion).outlierBuf = c2state.outlierBuf ∧
    ({ c2state with scan_time := 1 } : LinsFusion).cloudInfoBuf = c2state.cloudInfoBuf ∧
    ({ c2state with scan_time := 1 } : LinsFusion).estimator = c2state.estimator :=
  scheduler_ordering_guard c2state 1 51 1 52 1 53 (49/50)
    (by norm_num [upperBound, c2state, List.find?])
    (by norm_num [upperBound, c2state, List.find?])
    (by norm_num [upperBound, c2state, List.find?])
    (by norm_num [getLastTime, c2state])
    (by norm_num)

/-- C3: each drain-loop iteration integrates one step with
`dt = min(next sample time, scan time) - cursor` and advances the cursor by
exactly `dt`; eviction keeps precisely the entries strictly after the new
cursor; and in the concrete straddle scenario (cursor 0.95 s, scans at
1.0 s and 1.2 s, samples at 1.05 s and 1.25 s) the 1.05 s sample is applied
once with the clipped `dt` = 0.05 s to reach the 1.0 s scan, survives the
post-consumption eviction, and is reused with `dt` = 0.05 s for the 1.2 s
scan's leading edge. -/
theorem drain_loop_step_and_straddle :
    (∀ (n : Nat) (buf : MapRingBuffer Imu) (scanTime : ℚ) (e : StateEstimator)
        (tImu : ℚ) (imu : Imu),
      e.time < scanTime → upperBound buf e.time = some (tImu, imu) →
      drainImu (n + 1) buf scanTime e =
        drainImu n buf scanTime
          (processImu e (min tImu scanTime - e.time) imu.acc imu.gyr) ∧
      (processImu e (min tImu scanTime - e.time) imu.acc imu.gyr).time =
        e.time + (min tImu scanTime - e.time)) ∧
    (∀ (b : MapRingBuffer Imu) (t : ℚ) (x : ℚ × Imu),
      x ∈ (clean b t).entries ↔ x ∈ b.entries ∧ t < x.1) ∧
    (processPointClouds c3state).map (fun r => r.1) = some true ∧
    (processPointClouds c3state).map (fun r => r.2.estimator.imuLog) =
      some [(1/20, c3imu1.acc, c3imu1.gyr)] ∧
    (processPointClouds c3state).map (fun r => r.2.imuBuf.entries) =
      some [(21/20, c3imu1), (5/4, c3imu2)] ∧
    ((processPointClouds c3state).bind fun r => processPointClouds r.2).map
        (fun r => r.2.estimator.imuLog) =
      some [(1/20, c3imu1.acc, c3imu1.gyr), (1/20, c3imu1.acc, c3imu1.gyr),
        (3/20, c3imu2.acc, c3imu2.gyr)] := by
  refine ⟨?_, ?_, ?_, ?_, ?_, ?_⟩
  · intro n buf scanTime e tImu imu h1 h2
    constructor
    · simp only [drainImu]
      rw [if_pos h1, h2]
    · simp [processImu]
  · intro b t x
    simp [clean, List.mem_filter]
  all_goals
    norm_num [processPointClouds, c3state, c3imu1, c3imu2, upperBound, getLastTime,
      getLastMeas, clean, drainImu, processImu, processPCL, List.find?, min_def,
      List.getLast?, List.filter]

/-- C3 witness: the first drain iteration of the straddle scenario applies
the 1.05 s sample with `dt = min(1.05, 1.0) - 0.95 = 0.05` and advances
the cursor by exactly that much. -/
theorem drain_loop_step_witness :
    drainImu (0 + 1) c3state.imuBuf 1 c3state.estimator =
      drainImu 0 c3state.imuBuf 1
        (processImu c3state.estimator (min (21/20) 1 - c3state.estimator.time)
          c3imu1.acc c3imu1.gyr) ∧
    (processImu c3state.estimator (min (21/20) 1 - c3state.estimator.time)
        c3imu1.acc c3imu1.gyr).time =
      c3state.estimator.time + (min (21/20) 1 - c3state.estimator.time) :=
  drain_loop_step_and_straddle.1 0 c3state.imuBuf 1 c3state.estimator (21/20) c3imu1
    (by norm_num [c3state])
    (by norm_num [upperBound, c3state, c3imu1, List.find?])

/-- C9 (amended): on the first invocation with all four buffers non-empty
and the estimator uninitialized, the scheduler hands the most recent scan,
its side-channel payloads and the latest inertial sample to `processPCL`
regardless of inertial coverage, and cleans the scan, scan-info and
outlier-cloud buffers up to the scan time; the inertial buffer is left
unchanged (its stale entries are not discarded). -/
theorem first_scan_bootstrap (s : LinsFusion) (st : ℚ)
    (pclMsg outlierMsg infoMsg : Nat) (imu : Imu)
    (h1 : s.imuBuf.entries ≠ []) (h2 : s.pclBuf.entries ≠ [])
    (h3 : s.cloudInfoBuf.entries ≠ []) (h4 : s.outlierBuf.entries ≠ [])
    (hinit : s.estimator.initialized = false)
    (hpt : getLastTime s.pclBuf = some st)
    (hpm : getLastMeas s.pclBuf = some pclMsg)
    (hom : getLastMeas s.outlierBuf = some outlierMsg)
    (him : getLastMeas s.cloudInfoBuf = some infoMsg)
    (hlm : getLastMeas s.imuBuf = some imu) :
    performStateEstimation s = some { s with
      scan_time := st
      estimator := processPCL s.estimator st imu pclMsg infoMsg outlierMsg
      pclBuf := clean s.pclBuf st
      cloudInfoBuf := clean s.cloudInfoBuf st
      outlierBuf := clean s.outlierBuf st } := by
  unfold performStateEstimation
  rw [if_neg (by simp [h1, h2, h3, h4]), if_pos hinit]
  unfold processFirstPointCloud
  rw [hpt, hpm, hom, him, hlm]
  rfl


/-- C9 witness: bootstrap on a concrete uninitialized state with one entry
per buffer. -/
theorem first_scan_bootstrap_witness :
    performStateEstimation c9wstate = some { c9wstate with
      scan_time := 1
      estimator := processPCL c9wstate.estimator 1 c9wimu 61 63 62
      pclBuf := clean c9wstate.pclBuf 1
      cloudInfoBuf := clean c9wstate.cloudInfoBuf 1
      outlierBuf := clean c9wstate.outlierBuf 1 } :=
  first_scan_bootstrap c9wstate 1 61 62 63 c9wimu
    (by norm_num [c9wstate]) (by norm_num [c9wstate])
    (by norm_num [c9wstate]) (by norm_num [c9wstate])
    (by norm_num [c9wstate])
    (by norm_num [getLastTime, c9wstate, List.getLast?])
    (by norm_num [getLastMeas, c9wstate, List.getLast?])
    (by norm_num [getLastMeas, c9wstate, List.getLast?])
    (by norm_num [getLastMeas, c9wstate, List.getLast?])
    (by norm_num [getLastMeas, c9wstate, List.getLast?])

/-- C9 counterexample: with an inertial sample at 0.5 s and the bootstrap
scan at 1.0 s, the first invocation leaves the inertial buffer untouched,
so an entry strictly older than the scan is NOT discarded — refuting
"discards from all buffered streams every entry strictly older than that
scan" at this input. -/
theorem first_scan_keeps_imu_buffer :
    performStateEstimation c9state = some c9result ∧
    (1/2, c9imuOld) ∈ c9result.imuBuf.entries ∧ ((1/2 : ℚ) < 1) := by
  refine ⟨?_, by simp [c9result], by norm_num⟩
  unfold performStateEstimation
  rw [if_neg (by simp [c9state]),
    if_pos (show c9state.estimator.initialized = false from rfl)]
  norm_num [processFirstPointCloud, c9state, c9result, c9imuOld, c9imuNew,
    getLastTime, getLastMeas, clean, processPCL, List.getLast?, List.filter]

/-- C10: the guards checked before scan selection (all four buffers
non-empty, cursor behind the most recent scan time) do guarantee that the
scan-buffer `upper_bound` dereference is well-defined, but not the
outlier-cloud or scan-info ones: in the concrete state `c10state` every
guard holds, yet the outlier-cloud selection returns the end-of-data
sentinel, so `processPointClouds` (and the `performStateEstimation` loop
around it) hits the undefined dereference, marked `none` in this model. -/
theorem selection_end_sentinel_hazard :
    (∀ (s : LinsFusion) (T : ℚ), getLastTime s.pclBuf = some T →
      s.estimator.time < T → upperBound s.pclBuf s.estimator.time ≠ none) ∧
    (c10state.imuBuf.entries ≠ [] ∧ c10state.pclBuf.entries ≠ [] ∧
      c10state.cloudInfoBuf.entries ≠ [] ∧ c10state.outlierBuf.entries ≠ [] ∧
      c10state.estimator.initialized = true ∧
      getLastTime c10state.pclBuf = some (6/5) ∧
      c10state.estimator.time < 6/5) ∧
    upperBound c10state.outlierBuf c10state.estimator.time = none ∧
    processPointClouds c10state = none ∧
    performStateEstimation c10state = none := by
  refine ⟨?_, ?_, ?_, ?_, ?_⟩
  case _ =>
    intro s T hlast hlt hub
    rcases Option.map_eq_some'.mp hlast with ⟨e, he, hfst⟩
    rcases List.getLast?_eq_some_iff.mp he with ⟨ys, hys⟩
    have hmem : e ∈ s.pclBuf.entries := by
      rw [hys]; exact List.mem_append_right _ (List.mem_singleton_self e)
    have hnone := List.find?_eq_none.mp hub e hmem
    simp only [hfst, decide_eq_true_eq] at hnone
    exact hnone hlt
  all_goals
    norm_num [c10state, getLastTime, getLastMeas, upperBound, processPointClouds,
      performStateEstimation, estLoop, List.find?, List.getLast?]

/-- C10 witness: the scan-buffer selection is well-defined in `c10state`,
where the guards hold. -/
theorem selection_scan_welldefined_witness :
    getLastTime c10state.pclBuf = some (6/5) ∧
    c10state.estimator.time < 6/5 ∧
    upperBound c10state.pclBuf c10state.estimator.time ≠ none :=
  ⟨by norm_num [getLastTime, c10state, List.getLast?],
    by norm_num [c10state],
    selection_end_sentinel_hazard.1 c10state (6/5)
      (by norm_num [getLastTime, c10state, List.getLast?])
      (by norm_num [c10state])⟩

/-! ### Preintegration engine theorems -/

/-- The jacobian update performed by one `propagate` call is a left
multiplication by the per-step transition matrix. -/
theorem propagate_jacobian (s : IntegrationBase) (_dt : ℝ) (a g : Vec3) :
    (propagate s _dt a g).jacobian =
      stepF _dt s.acc_0 s.gyr_0 a g s.delta_q s.linearized_ba s.linearized_bg *
        s.jacobian := rfl

/-- `push_back` performs the same jacobian update (the history buffers do
not feed the integration). -/
theorem push_back_jacobian (s : IntegrationBase) (dt : ℝ) (acc gyr : Vec3) :
    (push_back s dt acc gyr).jacobian =
      stepF dt s.acc_0 s.gyr_0 acc gyr s.delta_q s.linearized_ba s.linearized_bg *
        s.jacobian := rfl

/-- C1: one integrate step on a state with cached previous sample
`(acc_0, gyr_0)`: the rotation delta is advanced by the small-angle
increment built from `0.5*(gyr_0 + gyr_1) - bg` over `dt`; the start
acceleration is rotated by the previous rotation delta, the end
acceleration by the newly advanced one; with their average `a_avg`, the new
position delta is `p + v*dt + 0.5*a_avg*dt^2` and the new velocity delta is
`v + a_avg*dt`, and `propagate` commits exactly these `delta_p`/`delta_v`. -/
theorem midpoint_integration_step (s : IntegrationBase) (_dt : ℝ) (a1 g1 : Vec3) :
    (midPointIntegration _dt s.acc_0 s.gyr_0 a1 g1 s.delta_p s.delta_q s.delta_v
        s.linearized_ba s.linearized_bg s.jacobian true).result_delta_q =
      s.delta_q * deltaQinc _dt (unGyr s.gyr_0 g1 s.linearized_bg) ∧
    (midPointIntegration _dt s.acc_0 s.gyr_0 a1 g1 s.delta_p s.delta_q s.delta_v
        s.linearized_ba s.linearized_bg s.jacobian true).result_delta_p =
      s.delta_p + _dt • s.delta_v + ((1 / 2) * _dt * _dt) •
        ((1 / 2 : ℝ) • (quatRotate s.delta_q (s.acc_0 - s.linearized_ba) +
          quatRotate (s.delta_q * deltaQinc _dt (unGyr s.gyr_0 g1 s.linearized_bg))
            (a1 - s.linearized_ba))) ∧
    (midPointIntegration _dt s.acc_0 s.gyr_0 a1 g1 s.delta_p s.delta_q s.delta_v
        s.linearized_ba s.linearized_bg s.jacobian true).result_delta_v =
      s.delta_v + _dt •
        ((1 / 2 : ℝ) • (quatRotate s.delta_q (s.acc_0 - s.linearized_ba) +
          quatRotate (s.delta_q * deltaQinc _dt (unGyr s.gyr_0 g1 s.linearized_bg))
            (a1 - s.linearized_ba))) ∧
    (propagate s _dt a1 g1).delta_p =
      (midPointIntegration _dt s.acc_0 s.gyr_0 a1 g1 s.delta_p s.delta_q s.delta_v
        s.linearized_ba s.linearized_bg s.jacobian true).result_delta_p ∧
    (propagate s _dt a1 g1).delta_v =
      (midPointIntegration _dt s.acc_0 s.gyr_0 a1 g1 s.delta_p s.delta_q s.delta_v
        s.linearized_ba s.linearized_bg s.jacobian true).result_delta_v :=
  ⟨rfl, rfl, rfl, rfl, rfl⟩

/-- C4: the jacobian is seeded with the identity at construction and, after
any sequence of integrate calls, equals the left-multiplicative composition
of the per-step transition matrices; in particular after two calls it is
the second step's matrix times the first step's matrix times the identity
seed. -/
theorem jacobian_left_composition :
    (∀ a0 g0 ba bg : Vec3, (mkIntegrationBase a0 g0 ba bg).jacobian = 1) ∧
    (∀ (s : IntegrationBase) (l : List (ℝ × Vec3 × Vec3)),
      (pushSteps s l).jacobian = stepProduct s l * s.jacobian) ∧
    (∀ (a0 g0 ba bg : Vec3) (d1 d2 : ℝ) (v1 w1 v2 w2 : Vec3),
      (pushSteps (mkIntegrationBase a0 g0 ba bg)
        [(d1, v1, w1), (d2, v2, w2)]).jacobian =
      stepF d2 (push_back (mkIntegrationBase a0 g0 ba bg) d1 v1 w1).acc_0
          (push_back (mkIntegrationBase a0 g0 ba bg) d1 v1 w1).gyr_0 v2 w2
          (push_back (mkIntegrationBase a0 g0 ba bg) d1 v1 w1).delta_q
          (push_back (mkIntegrationBase a0 g0 ba bg) d1 v1 w1).linearized_ba
          (push_back (mkIntegrationBase a0 g0 ba bg) d1 v1 w1).linearized_bg *
        (stepF d1 a0 g0 v1 w1 (1 : Quaternion ℝ) ba bg *
          (1 : Matrix (Fin 15) (Fin 15) ℝ))) := by
  have hgen : ∀ (l : List (ℝ × Vec3 × Vec3)) (s : IntegrationBase),
      (pushSteps s l).jacobian = stepProduct s l * s.jacobian := by
    intro l
    induction l with
    | nil => intro s; exact (one_mul _).symm
    | cons hd tl ih =>
      intro s
      obtain ⟨dt, acc, gyr⟩ := hd
      calc (pushSteps s ((dt, acc, gyr) :: tl)).jacobian
          = (pushSteps (push_back s dt acc gyr) tl).jacobian := rfl
        _ = stepProduct (push_back s dt acc gyr) tl *
              (push_back s dt acc gyr).jacobian := ih _
        _ = stepProduct (push_back s dt acc gyr) tl *
              (stepF dt s.acc_0 s.gyr_0 acc gyr s.delta_q s.linearized_ba
                s.linearized_bg * s.jacobian) := by rw [push_back_jacobian]
        _ = stepProduct s ((dt, acc, gyr) :: tl) * s.jacobian := by
              rw [← mul_assoc]; rfl
  exact ⟨fun a0 g0 ba bg => rfl, fun s l => hgen l s,
    fun a0 g0 ba bg d1 d2 v1 w1 v2 w2 => rfl⟩

/-- The small-angle increment quaternion is never zero: its real part is 1. -/
theorem deltaQinc_ne_zero (_dt : ℝ) (w : Vec3) : deltaQinc _dt w ≠ 0 := by
  intro h
  have h1 : (deltaQinc _dt w).re = 1 := rfl
  rw [h] at h1
  simp at h1

/-- Normalizing a nonzero quaternion yields a unit quaternion. -/
theorem norm_normalizeQ (q : Quaternion ℝ) (hq : q ≠ 0) : ‖normalizeQ q‖ = 1 := by
  rw [normalizeQ, norm_smul, Real.norm_eq_abs, abs_inv, abs_norm]
  exact inv_mul_cancel₀ (norm_ne_zero_iff.mpr hq)

/-- Normalizing a nonzero quaternion yields a nonzero quaternion. -/
theorem normalizeQ_ne_zero (q : Quaternion ℝ) (hq : q ≠ 0) : normalizeQ q ≠ 0 :=
  smul_ne_zero (inv_ne_zero (norm_ne_zero_iff.mpr hq)) hq

/-- An integrate call keeps the rotation delta nonzero. -/
theorem propagate_delta_q_ne_zero (s : IntegrationBase) (_dt : ℝ) (a g : Vec3)
    (h : s.delta_q ≠ 0) : (propagate s _dt a g).delta_q ≠ 0 :=
  normalizeQ_ne_zero _ (mul_ne_zero h (deltaQinc_ne_zero _ _))

/-- Any sequence of `push_back` calls keeps the rotation delta nonzero. -/
theorem pushSteps_delta_q_ne_zero :
    ∀ (l : List (ℝ × Vec3 × Vec3)) (s : IntegrationBase),
      s.delta_q ≠ 0 → (pushSteps s l).delta_q ≠ 0 := by
  intro l
  induction l with
  | nil => exact fun s h => h
  | cons hd tl ih =>
    intro s h
    obtain ⟨dt, acc, gyr⟩ := hd
    exact ih _ (propagate_delta_q_ne_zero _ dt acc gyr h)

/-- C5: after every integrate call on a state whose rotation delta is
nonzero, the rotation delta has unit norm (`propagate` ends by
renormalizing it), for every sample and every `dt`; and the nonzero
condition is the maintained invariant: every state built by integrate
calls from the constructor (whose rotation delta is the identity) has a
unit-norm rotation delta after its next integrate call. -/
theorem rotation_delta_renormalized :
    (∀ (s : IntegrationBase) (_dt : ℝ) (a g : Vec3), s.delta_q ≠ 0 →
      ‖(propagate s _dt a g).delta_q‖ = 1) ∧
    (∀ (a0 g0 ba bg : Vec3) (l : List (ℝ × Vec3 × Vec3)) (_dt : ℝ) (a g : Vec3),
      ‖(propagate (pushSteps (mkIntegrationBase a0 g0 ba bg) l) _dt a g).delta_q‖ = 1) := by
  have hmain : ∀ (s : IntegrationBase) (_dt : ℝ) (a g : Vec3), s.delta_q ≠ 0 →
      ‖(propagate s _dt a g).delta_q‖ = 1 := by
    intro s _dt a g h
    have h1 : (propagate s _dt a g).delta_q =
        normalizeQ (s.delta_q * deltaQinc _dt (unGyr s.gyr_0 g s.linearized_bg)) := rfl
    rw [h1]
    exact norm_normalizeQ _ (mul_ne_zero h (deltaQinc_ne_zero _ _))
  exact ⟨hmain, fun a0 g0 ba bg l _dt a g =>
    hmain _ _dt a g (pushSteps_delta_q_ne_zero l _ one_ne_zero)⟩

/-- C5 witness: one integrate call on a freshly constructed state. -/
theorem rotation_delta_renormalized_witness :
    (mkIntegrationBase 0 0 0 0).delta_q ≠ 0 ∧
    ‖(propagate (mkIntegrationBase 0 0 0 0) 1 0 0).delta_q‖ = 1 :=
  ⟨one_ne_zero, rotation_delta_renormalized.1 (mkIntegrationBase 0 0 0 0) 1 0 0 one_ne_zero⟩

/-- C6 (amended): integrate calls advance the jacobian but never touch the
covariance: it keeps its zero-initialized construction value. -/
theorem covariance_not_advanced :
    (∀ (s : IntegrationBase) (_dt : ℝ) (a g : Vec3),
      (propagate s _dt a g).covariance = s.covariance ∧
      (push_back s _dt a g).covariance = s.covariance) ∧
    (∀ a0 g0 ba bg : Vec3, (mkIntegrationBase a0 g0 ba bg).covariance = 0) :=
  ⟨fun s _dt a g => ⟨rfl, rfl⟩, fun a0 g0 ba bg => rfl⟩

/-- C6 counterexample: after an integrate call on a fresh state the
covariance still equals its zero construction value — refuting "the
covariance field reflects the accumulated error covariance (and not merely
its zero-initialized construction value)". -/
theorem covariance_zero_after_integrate :
    (push_back (mkIntegrationBase 0 0 0 0) 1 (fun _ => (1 : ℝ))
      (fun _ => (1 : ℝ))).covariance = (mkIntegrationBase 0 0 0 0).covariance ∧
    (mkIntegrationBase 0 0 0 0).covariance = 0 :=
  ⟨rfl, rfl⟩

/-- C7: every integrate call carries the stored biases forward unchanged,
and `setBa`/`setBg` change only the corresponding stored bias, leaving the
accumulated deltas, the jacobian and `sum_dt` unchanged. -/
theorem bias_frame_effects :
    (∀ (s : IntegrationBase) (_dt : ℝ) (a g : Vec3),
      (propagate s _dt a g).linearized_ba = s.linearized_ba ∧
      (propagate s _dt a g).linearized_bg = s.linearized_bg) ∧
    (∀ (s : IntegrationBase) (ba : Vec3),
      (setBa s ba).linearized_ba = ba ∧
      (setBa s ba).linearized_bg = s.linearized_bg ∧
      (setBa s ba).delta_p = s.delta_p ∧
      (setBa s ba).delta_q = s.delta_q ∧
      (setBa s ba).delta_v = s.delta_v ∧
      (setBa s ba).jacobian = s.jacobian ∧
      (setBa s ba).sum_dt = s.sum_dt) ∧
    (∀ (s : IntegrationBase) (bg : Vec3),
      (setBg s bg).linearized_bg = bg ∧
      (setBg s bg).linearized_ba = s.linearized_ba ∧
      (setBg s bg).delta_p = s.delta_p ∧
      (setBg s bg).delta_q = s.delta_q ∧
      (setBg s bg).delta_v = s.delta_v ∧
      (setBg s bg).jacobian = s.jacobian ∧
      (setBg s bg).sum_dt = s.sum_dt) :=
  ⟨fun s _dt a g => ⟨rfl, rfl⟩,
    fun s ba => ⟨rfl, rfl, rfl, rfl, rfl, rfl, rfl⟩,
    fun s bg => ⟨rfl, rfl, rfl, rfl, rfl, rfl, rfl⟩⟩

/-- With `dt = 0` every block of the per-step transition matrix collapses
to the corresponding identity-matrix block. -/
theorem Fblocks_zero_dt (R0 R1 Rw Ra0 Ra1 : Matrix (Fin 3) (Fin 3) ℝ)
    (b1 b2 : Fin 5) :
    Fblocks 0 R0 R1 Rw Ra0 Ra1 b1 b2 = if b1 = b2 then 1 else 0 := by
  fin_cases b1 <;> fin_cases b2 <;> simp [Fblocks]

/-- The block matrix with identity blocks on the diagonal is the 15×15
identity. -/
theorem toBlockMatrix_blockId :
    toBlockMatrix (fun b1 b2 => if b1 = b2 then (1 : Matrix (Fin 3) (Fin 3) ℝ) else 0) = 1 := by
  funext i j
  rcases i with ⟨i, hi⟩
  rcases j with ⟨j, hj⟩
  simp only [toBlockMatrix, Matrix.of_apply, apply_ite
    (fun M : Matrix (Fin 3) (Fin 3) ℝ => M ⟨i % 3, by omega⟩ ⟨j % 3, by omega⟩),
    Matrix.one_apply, Matrix.zero_apply, Fin.mk.injEq]
  split_ifs <;> first | rfl | (exfalso; omega)

/-- With `dt = 0` the per-step transition matrix is the identity. -/
theorem Fmat_zero_dt (dq rq : Quaternion ℝ) (w a0 a1 : Vec3) :
    Fmat 0 dq rq w a0 a1 = 1 := by
  rw [Fmat]
  have h : Fblocks 0 (toRotationMatrix dq) (toRotationMatrix rq) (skew w)
      (skew a0) (skew a1) =
      fun b1 b2 => if b1 = b2 then (1 : Matrix (Fin 3) (Fin 3) ℝ) else 0 := by
    funext b1 b2
    exact Fblocks_zero_dt _ _ _ _ _ b1 b2
  rw [h, toBlockMatrix_blockId]

/-- With `dt = 0` the small-angle increment is the identity quaternion. -/
theorem deltaQinc_zero_dt (w : Vec3) : deltaQinc 0 w = 1 := by
  simp [deltaQinc]
  rfl

/-- C8 (amended): a `dt = 0` integrate call leaves the (unit-norm)
rotation delta and the accumulated jacobian unchanged; a strictly negative
`dt` does not (see the counterexample below), so only `dt = 0` degenerates
to a no-op. -/
theorem zero_dt_noop (s : IntegrationBase) (a g : Vec3)
    (h : ‖s.delta_q‖ = 1) :
    (propagate s 0 a g).delta_q = s.delta_q ∧
    (propagate s 0 a g).jacobian = s.jacobian := by
  constructor
  · have h1 : (propagate s 0 a g).delta_q =
        normalizeQ (s.delta_q * deltaQinc 0 (unGyr s.gyr_0 g s.linearized_bg)) := rfl
    rw [h1, deltaQinc_zero_dt, mul_one, normalizeQ, h, inv_one, one_smul]
  · rw [propagate_jacobian]
    unfold stepF
    rw [Fmat_zero_dt, one_mul]

/-- C8 witness: a `dt = 0` call on a freshly constructed state. -/
theorem zero_dt_noop_witness :
    ‖(mkIntegrationBase 0 0 0 0).delta_q‖ = 1 ∧
    ((propagate (mkIntegrationBase 0 0 0 0) 0 0 0).delta_q =
        (mkIntegrationBase 0 0 0 0).delta_q ∧
      (propagate (mkIntegrationBase 0 0 0 0) 0 0 0).jacobian =
        (mkIntegrationBase 0 0 0 0).jacobian) :=
  ⟨norm_one, zero_dt_noop (mkIntegrationBase 0 0 0 0) 0 0 norm_one⟩

/-- C8 counterexample: an integrate call with `dt = -1` and angular rate
`(2,2,2)` on a fresh state changes the accumulated jacobian (its
attitude/attitude block becomes `I + [w]×`), refuting the claim for
negative `dt`. -/
theorem negative_dt_corrupts_jacobian :
    (propagate (mkIntegrationBase 0 0 0 0) (-1) 0 (fun _ => (2 : ℝ))).jacobian ≠
      (mkIntegrationBase 0 0 0 0).jacobian := by
  intro hEq
  have hEq2 : stepF (-1) 0 0 0 (fun _ => (2 : ℝ)) 1 0 0 *
      (1 : Matrix (Fin 15) (Fin 15) ℝ) = (1 : Matrix (Fin 15) (Fin 15) ℝ) := hEq
  rw [Matrix.mul_one] at hEq2
  have h87 := congrFun (congrFun hEq2 ⟨8, by norm_num⟩) ⟨7, by norm_num⟩
  simp only [stepF, Fmat, toBlockMatrix, Matrix.of_apply] at h87
  norm_num [Fblocks, skew, unGyr, Matrix.sub_apply, Matrix.smul_apply,
    Matrix.one_apply, Matrix.of_apply, Pi.smul_apply, Pi.add_apply, Pi.sub_apply,
    Pi.zero_apply, Fin.mk.injEq, smul_eq_mul] at h87
  split_ifs at h87 <;> norm_num at h87
